import Mathlib

/-!
Verification development for the git-push-deploy CLI.

The definitions below are a shallow embedding of the TypeScript sources:
`src/config/types.ts`, `src/config/loader.ts`, `src/utils/git.ts`,
`src/commands/stage.ts`, `src/commands/release.ts` (multi-server variant),
`src/commands/rollback.ts` and `src/commands/install.ts`.  External effects
(shell commands, the filesystem, user prompts) are threaded explicitly:
fallible shell calls are oracles of type `Except String Unit` or `Bool`,
the deploy repository is an explicit state record, and a command returns
an outcome record (what it reported and which effects it performed)
inside `Except String` mirroring thrown exceptions.
-/

namespace GPD

/-! ## Shell-safe character classes (src/config/loader.ts lines 157-160)

JS regexes, anchored with `^...$`:
  VALID_HOST_PATTERN        = /^[a-zA-Z0-9._@:-]+$/
  VALID_USER_PATTERN        = /^[a-zA-Z_][a-zA-Z0-9_-]*$/
  VALID_PROCESS_NAME_PATTERN = /^[a-zA-Z0-9_-]+$/
  VALID_PATH_PATTERN        = ^[a-zA-Z0-9_.  slash  -]+$  (letters, digits, underscore, dot, slash, dash)
-/

def isAsciiLetter (c : Char) : Bool :=
  (('a' ≤ c) && (c ≤ 'z')) || (('A' ≤ c) && (c ≤ 'Z'))

def isAsciiDigit (c : Char) : Bool :=
  ('0' ≤ c) && (c ≤ '9')

def validHostChar (c : Char) : Bool :=
  isAsciiLetter c || isAsciiDigit c || c = '.' || c = '_' || c = '@' || c = ':' || c = '-'

def validHost (s : String) : Bool :=
  !(s.toList.isEmpty) && s.toList.all validHostChar

def validUserTailChar (c : Char) : Bool :=
  isAsciiLetter c || isAsciiDigit c || c = '_' || c = '-'

def validUser (s : String) : Bool :=
  match s.toList with
  | [] => false
  | c :: cs => (isAsciiLetter c || c = '_') && cs.all validUserTailChar

def validProcessNameChar (c : Char) : Bool :=
  isAsciiLetter c || isAsciiDigit c || c = '_' || c = '-'

def validProcessName (s : String) : Bool :=
  !(s.toList.isEmpty) && s.toList.all validProcessNameChar

def validPathChar (c : Char) : Bool :=
  isAsciiLetter c || isAsciiDigit c || c = '_' || c = '.' || c = '/' || c = '-'

def validPath (s : String) : Bool :=
  !(s.toList.isEmpty) && s.toList.all validPathChar

/-- A string is an absolute path when it starts with a slash.  This is the
property the spec asserts for `bareRepo` / `targetDir`; the loader's
character patterns do not check it. -/
def isAbsolutePath (s : String) : Bool :=
  match s.toList with
  | [] => false
  | c :: _ => c = '/'

/-! ## Configuration data model (src/config/types.ts) -/

structure HooksCfg where
  preDeploy : Option (List String)
  postDeploy : Option (List String)
  postDeployLocal : Option (List String)
  deriving DecidableEq, Repr

structure ServerCfg where
  host : String
  sshOptions : Option String
  targetDir : String
  bareRepo : String
  group : Option String
  name : Option String
  deriving DecidableEq, Repr, Inhabited

structure ServiceCfg where
  sourceDir : String
  deployRepo : String
  artifacts : Option (List String)
  processManager : Option String
  processName : String
  pm2Home : Option String
  pm2User : Option String
  environment : Option String
  env : List (String × String)
  hooks : Option HooksCfg
  server : Option ServerCfg
  servers : Option (List ServerCfg)
  deriving DecidableEq, Repr

structure DeployCfg where
  services : List (String × ServiceCfg)
  deriving DecidableEq, Repr

def DEFAULT_ARTIFACTS : List String :=
  ["dist", "package.json", "ecosystem.config.cjs"]

def CONFIG_FILENAME : String := ".git-deploy.json"

/-- src/config/types.ts `getServers`: `config.servers` wins only when it is a
non-empty array; otherwise the single `config.server`; otherwise a thrown
error. -/
def getServers (cfg : ServiceCfg) : Except String (List ServerCfg) :=
  match cfg.servers with
  | some l =>
    if l.length > 0 then .ok l
    else
      match cfg.server with
      | some s => .ok [s]
      | none => .error ("No server configuration found.")
  | none =>
    match cfg.server with
    | some s => .ok [s]
    | none => .error ("No server configuration found.")

/-! ## parseSshPort / buildSshUrl (src/config/types.ts lines 288-306)

`parseSshPort` applies the JS regex  -p\s*(\d+)  and returns the captured
digit run of the leftmost match; `buildSshUrl` appends `:port` only when
`port` is truthy in JS, i.e. defined and non-zero. -/

def isWsChar (c : Char) : Bool :=
  c = ' ' || c = '\t' || c = '\n' || c = '\r' || c.toNat = 11 || c.toNat = 12

def digitsVal (cs : List Char) : Nat :=
  cs.foldl (fun n c => n * 10 + (c.toNat - 48)) 0

/-- One attempt of the regex  -p\s*(\d+)  anchored at the head of the list:
`-`, `p`, any run of whitespace, then a non-empty maximal digit run. -/
def matchP : List Char → Option Nat
  | '-' :: 'p' :: rest =>
    let afterWs := rest.dropWhile isWsChar
    let digits := afterWs.takeWhile isAsciiDigit
    if digits.isEmpty then none else some (digitsVal digits)
  | _ => none

/-- Leftmost-match scan: try `matchP` at every position, left to right. -/
def scanPort : List Char → Option Nat
  | [] => none
  | c :: cs =>
    match matchP (c :: cs) with
    | some n => some n
    | none => scanPort cs

def parseSshPort (sshOptions : Option String) : Option Nat :=
  match sshOptions with
  | none => none
  | some s => if s = "" then none else scanPort s.toList

def buildSshUrl (host : String) (bareRepo : String) (port : Option Nat) : String :=
  match port with
  | some p =>
    if p ≠ 0 then "ssh://" ++ host ++ ":" ++ toString p ++ bareRepo
    else "ssh://" ++ host ++ bareRepo
  | none => "ssh://" ++ host ++ bareRepo

/-- Spec-side reading of `parseSshPort`: the value at the first position of
the option string where the `-p`-flag pattern matches. -/
def sshPortFirstMatch (cs : List Char) : Option Nat :=
  (cs.tails.find? (fun t => (matchP t).isSome)).bind matchP

/-! ## Config validation (src/config/loader.ts lines 157-215) -/

def validateValue (value : String) (ok : String → Bool) (fieldName : String) :
    Except String Unit :=
  if ok value then .ok ()
  else .error ("Invalid " ++ fieldName ++ ": " ++ value ++ ". Contains unsafe characters.")

/-- The servers `validateServiceConfig` iterates over:
`config.servers || (config.server ? [config.server] : [])`.
In JS any array is truthy, so `servers: []` yields the empty list even when
a single `server` is configured. -/
def validationServers (cfg : ServiceCfg) : List ServerCfg :=
  match cfg.servers with
  | some l => l
  | none =>
    match cfg.server with
    | some s => [s]
    | none => []

def validateServer (s : ServerCfg) : Except String Unit :=
  match validateValue s.host validHost ("server.host") with
  | .error e => .error e
  | .ok _ =>
    match validateValue s.targetDir validPath ("server.targetDir") with
    | .error e => .error e
    | .ok _ =>
      match validateValue s.bareRepo validPath ("server.bareRepo") with
      | .error e => .error e
      | .ok _ =>
        match s.group with
        | some g =>
          if g = "" then .ok () else validateValue g validUser ("server.group")
        | none => .ok ()

def validateServers : List ServerCfg → Except String Unit
  | [] => .ok ()
  | s :: rest =>
    match validateServer s with
    | .error e => .error e
    | .ok _ => validateServers rest

def validateServiceConfig (cfg : ServiceCfg) : Except String Unit :=
  match (if cfg.processName = "" then (Except.ok ())
      else validateValue cfg.processName validProcessName ("processName")) with
  | .error e => .error e
  | .ok _ =>
    match (match cfg.pm2User with
        | some u =>
          if u = "" then (Except.ok ())
          else validateValue u validUser ("pm2User")
        | none => Except.ok ()) with
    | .error e => .error e
    | .ok _ => validateServers (validationServers cfg)

def getServiceConfig (dc : DeployCfg) (serviceName : String) : Except String ServiceCfg :=
  match dc.services.lookup serviceName with
  | none => .error ("Service " ++ serviceName ++ " not found in config.")
  | some cfg =>
    match validateServiceConfig cfg with
    | .ok _ => .ok cfg
    | .error e => .error e

/-! ## shell.ts `exec` and the git helpers built on it (src/utils/git.ts)

`execSync` reports a failed command by throwing an `Error` onto which the
whole `spawnSync` result is assigned, so the thrown object always carries
a `stdout` property (a captured string under stdio pipe, `null` under
stdio inherit).  shell.ts `exec` checks `'stdout' in error` — property
presence, true even for a `null` value — so its catch returns
`error.stdout?.trim() || ''` on every command failure and the rethrow arm
is dead.  `ExecResult` is the outcome of the underlying `execSync` call:
`success stdout` (stdout `null` under stdio inherit) or `failure stdout`
(the thrown error's `stdout` property). -/

inductive ExecResult where
  | success (stdout : Option String)
  | failure (stdout : Option String)
  deriving DecidableEq, Repr

/-- shell.ts `exec`.  The `Except` channel mirrors the TS exception
channel; it is never used, because both `execSync` outcomes end in a
returned string. -/
def exec (r : ExecResult) : Except String String :=
  match r with
  | .success out => .ok ((out.map (fun s => s.trim)).getD "")
  | .failure out => .ok ((out.map (fun s => s.trim)).getD "")

/-- src/utils/git.ts `gitCommit`: try/catch around `exec`, mapping a
thrown failure to `false`.  Since `exec` never throws, the catch (and the
source's own "No changes to commit" comment on it) is dead code and the
result is `true` for every commit outcome. -/
def gitCommit (commitExec : ExecResult) : Bool :=
  match exec commitExec with
  | .ok _ => true
  | .error _ => false

/-- src/utils/git.ts `gitPush`: a bare `exec`, so a push failure comes
back as a (possibly empty) output string and is never thrown to the
caller. -/
def gitPush (pushExec : ExecResult) : Except String String :=
  exec pushExec

/-! ## Artifact stager (src/commands/stage.ts)

The deploy repository is modelled as a record: whether `.git` exists,
the registered remote URL, and the blob stored at each artifact path
(`files p = none` means nothing staged at `p`).  Copying an artifact is
`removeDir destPath` followed by a recursive copy, so the destination blob
becomes exactly the source blob. -/

structure DeployRepoState where
  gitInitDone : Bool
  remoteUrl : Option String
  files : String → Option String

structure StageEnv where
  sourceDirExists : Bool
  srcArtifact : String → Option String
  workspaceConfigFile : Option String

structure StageOutcome where
  didInit : Bool
  copied : List String
  warnings : List String
  deriving DecidableEq, Repr

def updateFn (f : String → Option String) (k : String) (v : String) : String → Option String :=
  fun p => if p = k then some v else f p

/-- src/commands/stage.ts `initDeployRepoIfNeeded`: skip when `.git` exists,
otherwise `git init` and register the `origin` remote built from
host/bareRepo/sshOptions.  Returns (wasInitialized, new state). -/
def initDeployRepoIfNeeded (srv : ServerCfg) (st : DeployRepoState) :
    Bool × DeployRepoState :=
  if st.gitInitDone then (false, st)
  else
    (true,
      { st with
        gitInitDone := true
        remoteUrl := some (buildSshUrl srv.host srv.bareRepo (parseSshPort srv.sshOptions)) })

/-- The artifact copy loop of `stageCommand`: for each artifact present under
`sourceDir`, replace the staged blob; for each absent one, record a warning.
Returns (files, copied, warnings), with `copied`/`warnings` in loop order. -/
def stageCopy (arts : List String) (f : String → Option String) (env : StageEnv) :
    (String → Option String) × List String × List String :=
  match arts with
  | [] => (f, [], [])
  | a :: rest =>
    match env.srcArtifact a with
    | some v =>
      let r := stageCopy rest (updateFn f a v) env
      (r.1, a :: r.2.1, r.2.2)
    | none =>
      let r := stageCopy rest f env
      (r.1, r.2.1, a :: r.2.2)

/-- The effect part of `stageCommand` after the precondition checks: lazy
init, artifact copy, and (only when at least one artifact was copied, since
otherwise the command throws first) the copy of `.git-deploy.json`. -/
def stageCore (cfg : ServiceCfg) (srv : ServerCfg) (env : StageEnv)
    (st : DeployRepoState) : StageOutcome × DeployRepoState :=
  let ini := initDeployRepoIfNeeded srv st
  let arts := cfg.artifacts.getD DEFAULT_ARTIFACTS
  let cp := stageCopy arts ini.2.files env
  let files3 :=
    if cp.2.1.isEmpty then cp.1
    else
      match env.workspaceConfigFile with
      | some c => updateFn cp.1 CONFIG_FILENAME c
      | none => cp.1
  ({ didInit := ini.1, copied := cp.2.1, warnings := cp.2.2 },
   { ini.2 with files := files3 })

/-- src/commands/stage.ts `stageCommand`.  Throws when the source directory
is missing, when no `server` block exists (the JS destructuring of
`config.server` throws a TypeError), and when zero artifacts were copied. -/
def stageCommand (cfg : ServiceCfg) (env : StageEnv) (st : DeployRepoState) :
    Except String (StageOutcome × DeployRepoState) :=
  if env.sourceDirExists = false then
    .error ("Source directory not found: " ++ cfg.sourceDir)
  else
    match cfg.server with
    | none => .error ("Cannot destructure property host of config.server as it is undefined.")
    | some srv =>
      let r := stageCore cfg srv env st
      if r.1.copied.isEmpty then
        .error ("No artifacts were copied. Check your artifacts config and build output.")
      else .ok r

/-! ## Release publisher (src/commands/release.ts, multi-server variant)

Oracles: `hookOk` is the exit status of one hook command (release.ts's
`executeHooks` calls `execSync` directly inside its own try/catch, so hook
failures really are observed), `commitExec` the underlying `execSync`
outcome of `git commit`, `pushExec i` the underlying `execSync` outcome of
`git push` to server `i`.  The outcome record keeps what the command
reported and which effects ran. -/

def serverLabel (s : ServerCfg) : String :=
  match s.name with
  | some n => if n = "" then s.host else n
  | none => s.host

/-- src/commands/release.ts `executeHooks`: run commands in order, stop at the
first failure; the returned flag is `true` iff every command succeeded. -/
def executeHooks (hooks : List String) (hookOk : String → Bool) : Bool :=
  hooks.all hookOk

def preDeployHooks (cfg : ServiceCfg) : Option (List String) :=
  cfg.hooks.bind (fun h => h.preDeploy)

def postDeployLocalHooks (cfg : ServiceCfg) : Option (List String) :=
  cfg.hooks.bind (fun h => h.postDeployLocal)

structure ReleaseEnv where
  hasChanges : Bool
  hookOk : String → Bool
  commitExec : ExecResult
  pushExec : Nat → ExecResult

structure PushAcc where
  pushed : List Nat
  failed : List String
  pushSuccess : Bool
  deriving DecidableEq, Repr

/-- One iteration of the per-server push loop (release.ts lines 140-166)
as written: a push that throws would land the server label in
`failedServers` and clear the success flag.  `gitPush` never throws, so
the catch arm is dead. -/
def pushStep (labels : List String) (pushExec : Nat → ExecResult)
    (acc : PushAcc) (i : Nat) : PushAcc :=
  match gitPush (pushExec i) with
  | .ok _ =>
    { pushed := acc.pushed ++ [i]
      failed := acc.failed
      pushSuccess := acc.pushSuccess }
  | .error _ =>
    { pushed := acc.pushed ++ [i]
      failed := acc.failed ++ [labels.getD i ""]
      pushSuccess := false }

/-- The per-server push loop: every index is attempted in order. -/
def pushServers (labels : List String) (pushExec : Nat → ExecResult) : PushAcc :=
  (List.range labels.length).foldl (pushStep labels pushExec)
    { pushed := [], failed := [], pushSuccess := true }

structure ReleaseOutcome where
  report : String
  commitAttempted : Bool
  committed : Bool
  pushesAttempted : List Nat
  failedServers : List String
  pushSuccess : Bool
  postHooksRan : Bool
  remotesEnsured : Bool
  deriving DecidableEq, Repr

/-- src/commands/release.ts `releaseCommand`.  Order of checks: pre-deploy
hooks, `hasChanges`, `ensureRemotes`, `git add` + `gitCommit`, the push
loop, then post-deploy-local hooks guarded by `pushSuccess` (the all-pushes
flag) and the presence of the hook list. -/
def releaseCommand (serviceName : String) (cfg : ServiceCfg) (env : ReleaseEnv) :
    Except String ReleaseOutcome :=
  match getServers cfg with
  | .error e => .error e
  | .ok servers =>
    let preFail :=
      match preDeployHooks cfg with
      | some hs => !(executeHooks hs env.hookOk)
      | none => false
    if preFail then
      .ok { report := "Pre-deploy hooks failed, aborting release."
            commitAttempted := false, committed := false
            pushesAttempted := [], failedServers := []
            pushSuccess := false, postHooksRan := false, remotesEnsured := false }
    else if env.hasChanges = false then
      .ok { report := "No changes to release."
            commitAttempted := false, committed := false
            pushesAttempted := [], failedServers := []
            pushSuccess := false, postHooksRan := false, remotesEnsured := false }
    else
      let committed := gitCommit env.commitExec
      if committed = false then
        .ok { report := "No changes to commit."
              commitAttempted := true, committed := false
              pushesAttempted := [], failedServers := []
              pushSuccess := false, postHooksRan := false, remotesEnsured := true }
      else
        let acc := pushServers (servers.map serverLabel) env.pushExec
        let postRan := acc.pushSuccess && (postDeployLocalHooks cfg).isSome
        .ok { report :=
                if acc.pushSuccess then "Released " ++ serviceName
                else "Released with errors: " ++ String.intercalate ", " acc.failed
              commitAttempted := true, committed := true
              pushesAttempted := acc.pushed, failedServers := acc.failed
              pushSuccess := acc.pushSuccess, postHooksRan := postRan
              remotesEnsured := true }

/-! ## Rollback engine (src/commands/rollback.ts)

`resolveRef` is the `git rev-parse` oracle, `commitLog n` the detailed log,
`selection max` the interactive prompt (`none` = cancel or invalid input),
`confirmAnswer` the confirmation prompt. -/

structure CommitInfo where
  hash : String
  shortHash : String
  message : String
  date : String
  tags : List String
  deriving DecidableEq, Repr, Inhabited

structure RollbackEnv where
  repoExists : Bool
  currentCommit : String
  branch : String
  resolveRef : String → Option String
  commitLog : Nat → List CommitInfo
  selection : Nat → Option Nat
  confirmAnswer : Bool

structure RollbackOptions where
  force : Bool
  steps : Option Nat
  list : Bool
  deriving DecidableEq, Repr

structure RollbackOutcome where
  didReset : Bool
  resetTarget : Option String
  didForcePush : Bool
  report : String
  deriving DecidableEq, Repr

def rollbackNoop (report : String) : RollbackOutcome :=
  { didReset := false, resetTarget := none, didForcePush := false, report := report }

/-- Tail of `rollbackCommand` once a target commit is resolved: the
already-at-target guard, the confirmation prompt (skipped under `--force`),
then `git reset --hard` and the force push to origin. -/
def rollbackFinish (env : RollbackEnv) (opts : RollbackOptions) (c : String) :
    RollbackOutcome :=
  if c = env.currentCommit then rollbackNoop ("Already at target commit")
  else if opts.force = false && env.confirmAnswer = false then rollbackNoop ("Cancelled")
  else
    { didReset := true, resetTarget := some c, didForcePush := true
      report := "Rolled back to " ++ c }

/-- The interactive branch of `rollbackCommand`: list the last 10 commits,
drop the current one, and let the user pick a 1-based index or cancel. -/
def rollbackInteractive (env : RollbackEnv) (opts : RollbackOptions) :
    Except String RollbackOutcome :=
  let commits := env.commitLog 10
  if commits.length ≤ 1 then .error ("No previous commits to rollback to")
  else
    let previous := commits.drop 1
    match env.selection previous.length with
    | some idx =>
      if idx < previous.length then
        .ok (rollbackFinish env opts (previous.getD idx default).hash)
      else .ok (rollbackNoop ("Cancelled"))
    | none => .ok (rollbackNoop ("Cancelled"))

/-- src/commands/rollback.ts `rollbackCommand`.  `--list` only prints; a
given target ref is resolved via rev-parse; `--steps N` (N non-zero, since
`0` is falsy in JS) resolves `HEAD~N`; otherwise the interactive path picks
among the commits after HEAD in the detailed log. -/
def rollbackCommand (env : RollbackEnv) (target : Option String)
    (opts : RollbackOptions) : Except String RollbackOutcome :=
  if env.repoExists = false then
    .error ("Deploy repo not found. Have you deployed before?")
  else if opts.list then .ok (rollbackNoop ("Deployment history"))
  else
    match target with
    | some t =>
      match env.resolveRef t with
      | some c => .ok (rollbackFinish env opts c)
      | none => .error ("Invalid commit reference: " ++ t)
    | none =>
      match opts.steps with
      | some n =>
        if n = 0 then rollbackInteractive env opts
        else
          match env.resolveRef ("HEAD~" ++ toString n) with
          | some c => .ok (rollbackFinish env opts c)
          | none => .error ("Cannot go back " ++ toString n ++ " commits")
      | none => rollbackInteractive env opts

/-! ## Server-side installer (src/commands/install.ts)

The run is recorded as a trace of events.  `payloadConfig` is the
`.git-deploy.json` contained in the pushed commit (what `checkout -f`
materializes), `staleConfig` the file already sitting in the working
directory; `checkout -f` overwrites tracked files but leaves untracked
ones, so after checkout the file read is `payloadConfig` when present and
the stale file otherwise.  `overrideConfigPath = some f` models the
optional `options.configPath` pointing at a file with content `f`. -/

inductive IEvent where
  | checkout
  | readConfig
  | writeEnv
  | mkLogsDir
  | npmInstall
  | postHook
  | restart
  deriving DecidableEq, Repr

structure InstallEnv where
  targetDir : Option String
  gitDir : Option String
  checkoutOk : Bool
  payloadConfig : Option DeployCfg
  staleConfig : Option DeployCfg
  overrideConfigPath : Option (Option DeployCfg)
  logsDirExists : Bool
  npmOk : Bool
  restartOk : Bool

structure InstallOutcome where
  trace : List IEvent
  usedConfig : Option ServiceCfg
  deriving Repr

/-- src/commands/install.ts `installCommand`.  Steps in source order:
require `GPD_TARGET_DIR` / `GPD_GIT_DIR`, force-checkout from the bare
repo (fatal on failure), read `.git-deploy.json` from the working
directory (fatal when missing), validate it, write `.env` when configured,
ensure the logs directory, `npm install --omit=dev` (fatal on failure),
best-effort post-deploy hooks, then the process-manager restart. -/
def installCommand (serviceName : String) (env : InstallEnv) :
    InstallOutcome × Except String Unit :=
  match env.targetDir, env.gitDir with
  | some _, some _ =>
    let tr0 := [IEvent.checkout]
    if env.checkoutOk = false then
      ({ trace := tr0, usedConfig := none },
       .error ("Command failed: git checkout"))
    else
      let fileAfterCheckout :=
        match env.payloadConfig with
        | some d => some d
        | none => env.staleConfig
      let configFile :=
        match env.overrideConfigPath with
        | some f => f
        | none => fileAfterCheckout
      match configFile with
      | none =>
        ({ trace := tr0, usedConfig := none },
         .error (".git-deploy.json not found. Make sure it is included in artifacts."))
      | some dc =>
        match getServiceConfig dc serviceName with
        | .error e => ({ trace := tr0 ++ [IEvent.readConfig], usedConfig := none }, .error e)
        | .ok cfg =>
          let tr1 := tr0 ++ [IEvent.readConfig]
          let tr2 := tr1 ++ (if cfg.env.isEmpty then [] else [IEvent.writeEnv])
          let tr3 := tr2 ++ (if env.logsDirExists then [] else [IEvent.mkLogsDir])
          let tr4 := tr3 ++ [IEvent.npmInstall]
          if env.npmOk = false then
            ({ trace := tr4, usedConfig := some cfg },
             .error ("Command failed: npm install"))
          else
            let hookEvents :=
              match cfg.hooks.bind (fun h => h.postDeploy) with
              | some hs => hs.map (fun _ => IEvent.postHook)
              | none => []
            let tr5 := tr4 ++ hookEvents
            let tr6 := tr5 ++ [IEvent.restart]
            ({ trace := tr6, usedConfig := some cfg },
             if env.restartOk then .ok () else .error ("Command failed: process restart"))
  | _, _ =>
    ({ trace := [], usedConfig := none },
     .error ("GPD_TARGET_DIR and GPD_GIT_DIR must be set."))

/-! ## Lemmas about the push loop -/

theorem exec_ok (r : ExecResult) : ∃ s, exec r = .ok s := by
  cases r with
  | success out => exact ⟨_, rfl⟩
  | failure out => exact ⟨_, rfl⟩

/-- The catch in git.ts `gitCommit` is dead: the result is `true` for
every underlying commit outcome, failures included. -/
theorem gitCommit_always_true (r : ExecResult) : gitCommit r = true := by
  unfold gitCommit
  obtain ⟨s, hs⟩ := exec_ok r
  rw [hs]

/-- `gitPush` never throws: every push, failed or not, returns a string. -/
theorem gitPush_never_throws (r : ExecResult) : ∃ s, gitPush r = .ok s := by
  unfold gitPush
  exact exec_ok r

theorem pushStep_eq (labels : List String) (pe : Nat → ExecResult)
    (acc : PushAcc) (i : Nat) :
    pushStep labels pe acc i =
      { pushed := acc.pushed ++ [i], failed := acc.failed
        pushSuccess := acc.pushSuccess } := by
  unfold pushStep
  obtain ⟨s, hs⟩ := gitPush_never_throws (pe i)
  rw [hs]

theorem pushServers_foldl (labels : List String) (pe : Nat → ExecResult)
    (l : List Nat) (acc : PushAcc) :
    l.foldl (pushStep labels pe) acc =
      { pushed := acc.pushed ++ l, failed := acc.failed
        pushSuccess := acc.pushSuccess } := by
  induction l generalizing acc with
  | nil => simp
  | cons x xs ih =>
    rw [List.foldl_cons, pushStep_eq, ih]
    simp

/-- Since no push attempt can throw, the loop records every index as
attempted, never records a failure, and leaves the success flag `true`. -/
theorem pushServers_spec (labels : List String) (pe : Nat → ExecResult) :
    pushServers labels pe =
      { pushed := List.range labels.length
        failed := []
        pushSuccess := true } := by
  unfold pushServers
  rw [pushServers_foldl]
  simp

/-! ## Path lemmas for `releaseCommand` -/

/-- When the pre-deploy hooks pass and there are changes, `releaseCommand`
always reaches the push loop (the commit never reports failure) and always
reports full success: no push failure can be observed. -/
theorem releaseCommand_push_path (name : String) (cfg : ServiceCfg)
    (env : ReleaseEnv) (servers : List ServerCfg)
    (hs : getServers cfg = .ok servers)
    (hpre : ∀ hooks, preDeployHooks cfg = some hooks →
      executeHooks hooks env.hookOk = true)
    (hch : env.hasChanges = true) :
    releaseCommand name cfg env = .ok
      { report := "Released " ++ name
        commitAttempted := true
        committed := true
        pushesAttempted := List.range servers.length
        failedServers := []
        pushSuccess := true
        postHooksRan := (postDeployLocalHooks cfg).isSome
        remotesEnsured := true } := by
  unfold releaseCommand
  rw [hs]
  have hpf :
      (match preDeployHooks cfg with
        | some hs => !(executeHooks hs env.hookOk)
        | none => false) = false := by
    cases hpd : preDeployHooks cfg with
    | none => rfl
    | some hooks => simp [hpre hooks hpd]
  simp only [hpf, hch, gitCommit_always_true, pushServers_spec]
  simp [pushServers_spec]

/-- With no changes in the deploy repository, `releaseCommand` stops before
commit and push; the "No changes to release." report additionally needs the
pre-deploy hooks not to have aborted first. -/
theorem releaseCommand_no_changes (name : String) (cfg : ServiceCfg)
    (env : ReleaseEnv) (servers : List ServerCfg)
    (hs : getServers cfg = .ok servers)
    (hpre : ∀ hooks, preDeployHooks cfg = some hooks →
      executeHooks hooks env.hookOk = true)
    (hch : env.hasChanges = false) :
    releaseCommand name cfg env = .ok
      { report := "No changes to release."
        commitAttempted := false, committed := false
        pushesAttempted := [], failedServers := []
        pushSuccess := false, postHooksRan := false, remotesEnsured := false } := by
  unfold releaseCommand
  rw [hs]
  have hpf :
      (match preDeployHooks cfg with
        | some hs => !(executeHooks hs env.hookOk)
        | none => false) = false := by
    cases hpd : preDeployHooks cfg with
    | none => rfl
    | some hooks => simp [hpre hooks hpd]
  simp [hpf, hch]

/-- When some pre-deploy hook fails, `releaseCommand` aborts before the
change check, the commit and any push. -/
theorem releaseCommand_prefail (name : String) (cfg : ServiceCfg)
    (env : ReleaseEnv) (servers : List ServerCfg) (hooks : List String)
    (hs : getServers cfg = .ok servers)
    (hpd : preDeployHooks cfg = some hooks)
    (hex : executeHooks hooks env.hookOk = false) :
    releaseCommand name cfg env = .ok
      { report := "Pre-deploy hooks failed, aborting release."
        commitAttempted := false, committed := false
        pushesAttempted := [], failedServers := []
        pushSuccess := false, postHooksRan := false, remotesEnsured := false } := by
  unfold releaseCommand
  rw [hs]
  simp [hpd, hex]

/-! ## Concrete fixtures for witnesses and counterexamples -/

def srvAlpha : ServerCfg :=
  { host := "deploy@alpha.example", sshOptions := none
    targetDir := "/opt/app", bareRepo := "/git/app"
    group := none, name := some "alpha" }

def srvBeta : ServerCfg :=
  { host := "deploy@beta.example", sshOptions := some "-p 2222"
    targetDir := "/opt/app", bareRepo := "/git/app"
    group := none, name := some "beta" }

def cfgTwo : ServiceCfg :=
  { sourceDir := "app", deployRepo := "deploy/staging"
    artifacts := some ["dist", "package.json"]
    processManager := some "pm2", processName := "app"
    pm2Home := none, pm2User := none, environment := some "staging"
    env := [], hooks := some
      { preDeploy := none, postDeploy := none
        postDeployLocal := some ["./announce.sh"] }
    server := none, servers := some [srvAlpha, srvBeta] }

def cfgSingle : ServiceCfg :=
  { sourceDir := "app", deployRepo := "deploy/staging"
    artifacts := some ["dist", "package.json"]
    processManager := some "pm2", processName := "app"
    pm2Home := none, pm2User := none, environment := some "staging"
    env := [], hooks := none
    server := some srvAlpha, servers := none }

def cfgPreHookFail : ServiceCfg :=
  { cfgSingle with
    hooks := some
      { preDeploy := some ["./broken-hook.sh"], postDeploy := none
        postDeployLocal := none } }

/-- Every underlying `git push` invocation fails (stdio inherit, so the
thrown error's `stdout` is `null`). -/
def envPushBothFail : ReleaseEnv :=
  { hasChanges := true, hookOk := fun _ => true
    commitExec := .success none, pushExec := fun _ => .failure none }

def envPreFail : ReleaseEnv :=
  { hasChanges := false, hookOk := fun _ => false
    commitExec := .success none, pushExec := fun _ => .success none }

/-- The underlying `git commit` fails (for any reason). -/
def envCommitFailing : ReleaseEnv :=
  { hasChanges := true, hookOk := fun _ => true
    commitExec := .failure (some "nothing to commit, working tree clean")
    pushExec := fun _ => .success none }

/-! ## Claims -/

/-- C1 (code bug): the release should record the labels of the servers
whose push failed, and release.ts's per-server try/catch is written to do
so — but `gitPush` never throws (shell.ts `exec` returns `error.stdout`
for every `execSync` failure), so the catch is dead.  At a two-server
fixture whose underlying pushes both fail, both pushes are attempted, yet
`failedServers` is empty, `pushSuccess` stays `true` and the command
reports plain success. -/
theorem c1_push_failures_never_recorded :
    (∀ r, ∃ s, gitPush r = .ok s) ∧
    envPushBothFail.pushExec 0 = ExecResult.failure none ∧
    envPushBothFail.pushExec 1 = ExecResult.failure none ∧
    (releaseCommand "api" cfgTwo envPushBothFail).map
      (fun o => (o.pushesAttempted, o.failedServers, o.pushSuccess, o.report)) =
      .ok ([0, 1], [], true, "Released api") := by
  refine ⟨gitPush_never_throws, rfl, rfl, ?_⟩
  rw [releaseCommand_push_path "api" cfgTwo envPushBothFail [srvAlpha, srvBeta]
    rfl (fun _ h => Option.noConfusion h) rfl]
  rfl

/-- C5 counterexample: with no changes in the deploy repository but a
failing pre-deploy hook, `releaseCommand` reports the hook failure, not
"No changes to release." — the claim's universal report statement fails. -/
theorem c5_counterexample :
    envPreFail.hasChanges = false ∧
    (releaseCommand "api" cfgPreHookFail envPreFail).map (fun o => o.report) =
      .ok "Pre-deploy hooks failed, aborting release." ∧
    ("Pre-deploy hooks failed, aborting release." : String) ≠ "No changes to release." := by
  refine ⟨rfl, ?_, by decide⟩
  rw [releaseCommand_prefail "api" cfgPreHookFail envPreFail [srvAlpha]
    ["./broken-hook.sh"] rfl rfl rfl]
  rfl

/-- C5 (amended): on an unchanged deploy repository `releaseCommand` never
commits and never pushes; it reports "No changes to release." provided the
pre-deploy hooks did not already abort the release (the hook-failure abort
happens before the change check and reports its own message). -/
theorem c5_release_no_changes_noop (name : String) (cfg : ServiceCfg)
    (env : ReleaseEnv) (servers : List ServerCfg)
    (hs : getServers cfg = .ok servers)
    (hch : env.hasChanges = false) :
    ∃ out, releaseCommand name cfg env = .ok out ∧
      out.commitAttempted = false ∧ out.committed = false ∧
      out.pushesAttempted = [] ∧ out.failedServers = [] ∧
      out.postHooksRan = false ∧
      ((∀ hooks, preDeployHooks cfg = some hooks →
          executeHooks hooks env.hookOk = true) →
        out.report = "No changes to release.") := by
  cases hpd : preDeployHooks cfg with
  | none =>
    refine ⟨_, releaseCommand_no_changes name cfg env servers hs ?_ hch,
      rfl, rfl, rfl, rfl, rfl, fun _ => rfl⟩
    intro hooks h
    rw [hpd] at h
    exact Option.noConfusion h
  | some hooks =>
    cases hex : executeHooks hooks env.hookOk with
    | true =>
      refine ⟨_, releaseCommand_no_changes name cfg env servers hs ?_ hch,
        rfl, rfl, rfl, rfl, rfl, fun _ => rfl⟩
      intro hooks2 h2
      rw [hpd] at h2
      cases h2
      exact hex
    | false =>
      refine ⟨_, releaseCommand_prefail name cfg env servers hooks hs hpd hex,
        rfl, rfl, rfl, rfl, rfl, ?_⟩
      intro hpre
      have hcontra := hpre hooks rfl
      rw [hex] at hcontra
      exact Bool.noConfusion hcontra

/-- Witness for C5 (amended) at a single-server fixture with a clean
working tree: no commit, no push, and the no-changes report. -/
theorem c5_release_no_changes_noop_witness :
    ({ hasChanges := false, hookOk := fun _ => true
       commitExec := .success none, pushExec := fun _ => .success none } : ReleaseEnv).hasChanges = false ∧
    (∃ out, releaseCommand "api" cfgSingle
        { hasChanges := false, hookOk := fun _ => true
          commitExec := .success none, pushExec := fun _ => .success none } = .ok out ∧
      out.commitAttempted = false ∧ out.committed = false ∧
      out.pushesAttempted = [] ∧ out.failedServers = [] ∧
      out.postHooksRan = false ∧
      ((∀ hooks, preDeployHooks cfgSingle = some hooks →
          executeHooks hooks
            ({ hasChanges := false, hookOk := fun _ => true
               commitExec := .success none, pushExec := fun _ => .success none } : ReleaseEnv).hookOk = true) →
        out.report = "No changes to release.")) :=
  ⟨rfl, c5_release_no_changes_noop "api" cfgSingle
    { hasChanges := false, hookOk := fun _ => true
      commitExec := .success none, pushExec := fun _ => .success none } [srvAlpha] rfl rfl⟩

/-- C6 (code bug): the post-deploy-local hooks are meant to run only after
at least one successful push (release.ts guards them with `pushSuccess`),
but push failures are never observed — `gitPush` never throws — so
`pushSuccess` is constantly `true` and the hooks run whenever configured,
even when every underlying push failed. -/
theorem c6_post_hooks_run_even_when_all_pushes_fail :
    (postDeployLocalHooks cfgTwo).isSome = true ∧
    envPushBothFail.pushExec 0 = ExecResult.failure none ∧
    envPushBothFail.pushExec 1 = ExecResult.failure none ∧
    (releaseCommand "api" cfgTwo envPushBothFail).map
      (fun o => (o.postHooksRan, o.pushSuccess)) = .ok (true, true) := by
  refine ⟨rfl, rfl, rfl, ?_⟩
  rw [releaseCommand_push_path "api" cfgTwo envPushBothFail [srvAlpha, srvBeta]
    rfl (fun _ h => Option.noConfusion h) rfl]
  rfl

/-- C9 (code bug): git.ts `gitCommit` is written to catch a failed commit
and return `false`, and release.ts relies on that to report "No changes to
commit." and stop — but shell.ts `exec` catches every `execSync` failure
(the error always carries a `stdout` property) and returns instead of
rethrowing, so `gitCommit` returns `true` on any commit failure and the
release proceeds to push and reports success. -/
theorem c9_gitCommit_true_on_failure :
    (∀ r, gitCommit r = true) ∧
    gitCommit (ExecResult.failure (some "nothing to commit, working tree clean")) = true ∧
    (releaseCommand "api" cfgSingle envCommitFailing).map
      (fun o => (o.report, o.committed, o.pushesAttempted)) =
      .ok ("Released api", true, [0]) ∧
    ("Released api" : String) ≠ "No changes to commit." := by
  refine ⟨gitCommit_always_true, gitCommit_always_true _, ?_, by decide⟩
  rw [releaseCommand_push_path "api" cfgSingle envCommitFailing [srvAlpha]
    rfl (fun _ h => Option.noConfusion h) rfl]
  rfl

/-- After any resolution mode, `rollbackFinish` at the current HEAD is the
informational no-op. -/
theorem rollbackFinish_at_head (env : RollbackEnv) (opts : RollbackOptions) :
    rollbackFinish env opts env.currentCommit =
      rollbackNoop ("Already at target commit") := by
  simp [rollbackFinish]

/-- C4: whenever the resolved rollback target equals the current HEAD —
via an explicit target ref, via `--steps N`, or via the interactive
selection — `rollbackCommand` performs no hard reset and no force push and
reports "Already at target commit"; the no-op outcome mutates nothing. -/
theorem c4_rollback_noop_at_head (env : RollbackEnv) (opts : RollbackOptions)
    (hrepo : env.repoExists = true) (hlist : opts.list = false) :
    (rollbackNoop ("Already at target commit")).didReset = false ∧
    (rollbackNoop ("Already at target commit")).didForcePush = false ∧
    (rollbackNoop ("Already at target commit")).resetTarget = none ∧
    (∀ t, env.resolveRef t = some env.currentCommit →
      rollbackCommand env (some t) opts =
        .ok (rollbackNoop ("Already at target commit"))) ∧
    (∀ n, n ≠ 0 → opts.steps = some n →
      env.resolveRef ("HEAD~" ++ toString n) = some env.currentCommit →
      rollbackCommand env none opts =
        .ok (rollbackNoop ("Already at target commit"))) ∧
    (∀ idx, (opts.steps = none ∨ opts.steps = some 0) →
      1 < (env.commitLog 10).length →
      env.selection ((env.commitLog 10).drop 1).length = some idx →
      idx < ((env.commitLog 10).drop 1).length →
      (((env.commitLog 10).drop 1).getD idx default).hash = env.currentCommit →
      rollbackCommand env none opts =
        .ok (rollbackNoop ("Already at target commit"))) := by
  refine ⟨rfl, rfl, rfl, ?_, ?_, ?_⟩
  · intro t ht
    unfold rollbackCommand
    simp [hrepo, hlist, ht, rollbackFinish_at_head]
  · intro n hn hsteps ht
    unfold rollbackCommand
    simp [hrepo, hlist, hsteps, hn, ht, rollbackFinish_at_head]
  · intro idx hsteps hlen hsel hidx hhash
    have hint : rollbackInteractive env opts =
        .ok (rollbackNoop ("Already at target commit")) := by
      unfold rollbackInteractive
      rw [if_neg (by omega)]
      simp only [hsel, if_pos hidx, hhash, rollbackFinish_at_head]
    unfold rollbackCommand
    rcases hsteps with h0 | h0 <;>
      simp [hrepo, hlist, h0, hint]

def envRollback : RollbackEnv :=
  { repoExists := true, currentCommit := "abc1234", branch := "main"
    resolveRef := fun r => if r = "v1.0.0" then some "abc1234" else none
    commitLog := fun _ => [], selection := fun _ => none
    confirmAnswer := true }

/-- Witness for C4: rolling back to a tag that resolves to the current
HEAD is a pure no-op with the informational report. -/
theorem c4_rollback_noop_at_head_witness :
    envRollback.resolveRef "v1.0.0" = some envRollback.currentCommit ∧
    rollbackCommand envRollback (some "v1.0.0")
        { force := false, steps := none, list := false } =
      .ok (rollbackNoop ("Already at target commit")) :=
  ⟨rfl,
    (c4_rollback_noop_at_head envRollback
      { force := false, steps := none, list := false } rfl rfl).2.2.2.1
      "v1.0.0" rfl⟩

/-! ## Lemmas about the installer trace -/

/-- Every install trace is empty (missing env), the lone checkout (checkout
failure or missing config file), or starts with the checkout followed
immediately by the config read. -/
theorem installCommand_trace_shape (name : String) (env : InstallEnv) :
    (installCommand name env).1.trace = [] ∨
    (installCommand name env).1.trace = [IEvent.checkout] ∨
    ∃ rest, (installCommand name env).1.trace =
      IEvent.checkout :: IEvent.readConfig :: rest := by
  unfold installCommand
  cases htd : env.targetDir with
  | none => simp
  | some td =>
    cases hgd : env.gitDir with
    | none => simp
    | some gd =>
      cases hco : env.checkoutOk with
      | false => simp
      | true =>
        simp only [Bool.true_eq_false, if_false]
        cases hcf :
            (match env.overrideConfigPath with
              | some f => f
              | none =>
                match env.payloadConfig with
                | some d => some d
                | none => env.staleConfig) with
        | none => simp
        | some dc =>
          cases hg : getServiceConfig dc name with
          | error e => simp [hg]
          | ok cfg =>
            cases hnpm : env.npmOk with
            | false =>
              refine Or.inr (Or.inr ?_)
              simp only [hg, hnpm]
              exact ⟨_, rfl⟩
            | true =>
              refine Or.inr (Or.inr ?_)
              simp only [hg, hnpm]
              exact ⟨_, rfl⟩

/-- When the install run actually used a service configuration and no
explicit config path was passed, that configuration came from the pushed
payload (the file materialized by the checkout). -/
theorem installCommand_usedConfig (name : String) (env : InstallEnv)
    (cfg : ServiceCfg) (dc : DeployCfg)
    (hov : env.overrideConfigPath = none)
    (hpay : env.payloadConfig = some dc)
    (hused : (installCommand name env).1.usedConfig = some cfg) :
    getServiceConfig dc name = .ok cfg := by
  unfold installCommand at hused
  cases htd : env.targetDir with
  | none => rw [htd] at hused; exact Option.noConfusion hused
  | some td =>
    cases hgd : env.gitDir with
    | none => rw [htd, hgd] at hused; exact Option.noConfusion hused
    | some gd =>
      rw [htd, hgd] at hused
      cases hco : env.checkoutOk with
      | false => rw [hco] at hused; exact Option.noConfusion hused
      | true =>
        rw [hco] at hused
        simp only [hov, hpay, Bool.true_eq_false, if_false] at hused
        cases hg : getServiceConfig dc name with
        | error e => rw [hg] at hused; exact Option.noConfusion hused
        | ok cfg2 =>
          rw [hg] at hused
          cases hnpm : env.npmOk with
          | false =>
            rw [hnpm] at hused
            simp at hused
            rw [hused]
          | true =>
            rw [hnpm] at hused
            simp at hused
            rw [hused]

/-- C3: in every install run, the forced git checkout happens strictly
before the deployment configuration is read (the first `readConfig` event
is preceded by the `checkout` event), and the configuration used by the
remaining steps is the one carried in the pushed payload whenever the
payload includes the config file and no explicit config path overrides it. -/
theorem c3_install_checkout_before_config_read (name : String) (env : InstallEnv) :
    (IEvent.readConfig ∈ (installCommand name env).1.trace →
      ∃ pre post, (installCommand name env).1.trace = pre ++ IEvent.readConfig :: post ∧
        IEvent.checkout ∈ pre ∧ IEvent.readConfig ∉ pre) ∧
    (∀ cfg dc, (installCommand name env).1.usedConfig = some cfg →
      env.overrideConfigPath = none →
      env.payloadConfig = some dc →
      getServiceConfig dc name = .ok cfg) := by
  constructor
  · intro hmem
    rcases installCommand_trace_shape name env with h | h | ⟨rest, h⟩
    · rw [h] at hmem; exact absurd hmem (by simp)
    · rw [h] at hmem; simp at hmem
    · refine ⟨[IEvent.checkout], rest, by rw [h]; rfl, by simp, by simp⟩
  · intro cfg dc hused hov hpay
    exact installCommand_usedConfig name env cfg dc hov hpay hused

def dcFixture : DeployCfg := { services := [("api", cfgSingle)] }

def envInstall : InstallEnv :=
  { targetDir := some "/opt/app", gitDir := some "/git/app"
    checkoutOk := true, payloadConfig := some dcFixture, staleConfig := none
    overrideConfigPath := none, logsDirExists := false
    npmOk := true, restartOk := true }

/-! ## Lemmas about the artifact copy loop -/

theorem stageCopy_copied (arts : List String) (f : String → Option String)
    (env : StageEnv) :
    (stageCopy arts f env).2.1 =
      arts.filter (fun a => (env.srcArtifact a).isSome) := by
  induction arts generalizing f with
  | nil => rfl
  | cons a rest ih =>
    unfold stageCopy
    cases h : env.srcArtifact a with
    | some v => simp [h, ih, List.filter_cons]
    | none => simp [h, ih, List.filter_cons]

theorem stageCopy_warnings (arts : List String) (f : String → Option String)
    (env : StageEnv) :
    (stageCopy arts f env).2.2 =
      arts.filter (fun a => !(env.srcArtifact a).isSome) := by
  induction arts generalizing f with
  | nil => rfl
  | cons a rest ih =>
    unfold stageCopy
    cases h : env.srcArtifact a with
    | some v => simp [h, ih, List.filter_cons]
    | none => simp [h, ih, List.filter_cons]

/-- Each artifact position holds the source blob when that artifact is in
the list and present under `sourceDir`; every other position is untouched. -/
theorem stageCopy_files (arts : List String) (f : String → Option String)
    (env : StageEnv) (p : String) :
    (stageCopy arts f env).1 p =
      if p ∈ arts ∧ (env.srcArtifact p).isSome = true then env.srcArtifact p
      else f p := by
  induction arts generalizing f with
  | nil => simp [stageCopy]
  | cons a rest ih =>
    unfold stageCopy
    cases h : env.srcArtifact a with
    | some v =>
      simp only []
      rw [ih]
      by_cases hm : p ∈ rest ∧ (env.srcArtifact p).isSome = true
      · rw [if_pos hm, if_pos ⟨List.mem_cons_of_mem a hm.1, hm.2⟩]
      · rw [if_neg hm]
        unfold updateFn
        by_cases hpa : p = a
        · subst hpa
          have hsome : (env.srcArtifact p).isSome = true := by rw [h]; rfl
          rw [if_pos rfl, if_pos ⟨List.mem_cons_self p rest, hsome⟩, h]
        · rw [if_neg hpa, if_neg ?_]
          rintro ⟨hmem, hs⟩
          rcases List.mem_cons.mp hmem with h1 | h1
          · exact hpa h1
          · exact hm ⟨h1, hs⟩
    | none =>
      simp only []
      rw [ih]
      by_cases hpa : p = a
      · subst hpa
        have hns : (env.srcArtifact p).isSome = false := by rw [h]; rfl
        rw [if_neg ?_, if_neg ?_]
        · rintro ⟨_, hs⟩
          rw [hns] at hs
          exact Bool.noConfusion hs
        · rintro ⟨_, hs⟩
          rw [hns] at hs
          exact Bool.noConfusion hs
      · by_cases hm : p ∈ rest ∧ (env.srcArtifact p).isSome = true
        · rw [if_pos hm, if_pos ⟨List.mem_cons_of_mem a hm.1, hm.2⟩]
        · rw [if_neg hm, if_neg ?_]
          rintro ⟨hmem, hs⟩
          rcases List.mem_cons.mp hmem with h1 | h1
          · exact hpa h1
          · exact hm ⟨h1, hs⟩

theorem stageCore_copied (cfg : ServiceCfg) (srv : ServerCfg) (env : StageEnv)
    (st : DeployRepoState) :
    (stageCore cfg srv env st).1.copied =
      (cfg.artifacts.getD DEFAULT_ARTIFACTS).filter
        (fun a => (env.srcArtifact a).isSome) := by
  unfold stageCore
  simp [stageCopy_copied]

theorem stageCore_warnings (cfg : ServiceCfg) (srv : ServerCfg) (env : StageEnv)
    (st : DeployRepoState) :
    (stageCore cfg srv env st).1.warnings =
      (cfg.artifacts.getD DEFAULT_ARTIFACTS).filter
        (fun a => !(env.srcArtifact a).isSome) := by
  unfold stageCore
  simp [stageCopy_warnings]

theorem stageCore_gitInitDone (cfg : ServiceCfg) (srv : ServerCfg)
    (env : StageEnv) (st : DeployRepoState) :
    (stageCore cfg srv env st).2.gitInitDone = true := by
  unfold stageCore initDeployRepoIfNeeded
  cases h : st.gitInitDone <;> simp [h]

theorem stageCore_didInit (cfg : ServiceCfg) (srv : ServerCfg)
    (env : StageEnv) (st : DeployRepoState) :
    (stageCore cfg srv env st).1.didInit = !st.gitInitDone := by
  unfold stageCore initDeployRepoIfNeeded
  cases h : st.gitInitDone <;> simp [h]

theorem stageCore_remoteUrl (cfg : ServiceCfg) (srv : ServerCfg)
    (env : StageEnv) (st : DeployRepoState) :
    (stageCore cfg srv env st).2.remoteUrl =
      (if st.gitInitDone then st.remoteUrl
       else some (buildSshUrl srv.host srv.bareRepo (parseSshPort srv.sshOptions))) := by
  unfold stageCore initDeployRepoIfNeeded
  cases h : st.gitInitDone <;> simp [h]

/-- The staged file contents after a run that copied at least one artifact:
the workspace config file lands at `CONFIG_FILENAME`, each present listed
artifact holds the source blob, every other path is untouched. -/
theorem stageCore_files (cfg : ServiceCfg) (srv : ServerCfg) (env : StageEnv)
    (st : DeployRepoState) (p : String)
    (hne : ((cfg.artifacts.getD DEFAULT_ARTIFACTS).filter
      (fun a => (env.srcArtifact a).isSome)) ≠ []) :
    (stageCore cfg srv env st).2.files p =
      if env.workspaceConfigFile ≠ none ∧ p = CONFIG_FILENAME then
        env.workspaceConfigFile
      else if p ∈ cfg.artifacts.getD DEFAULT_ARTIFACTS ∧
          (env.srcArtifact p).isSome = true then
        env.srcArtifact p
      else st.files p := by
  have hfiles :
      (stageCore cfg srv env st).2.files =
        (let cp := stageCopy (cfg.artifacts.getD DEFAULT_ARTIFACTS)
          (initDeployRepoIfNeeded srv st).2.files env
        match env.workspaceConfigFile with
        | some c => updateFn cp.1 CONFIG_FILENAME c
        | none => cp.1) := by
    unfold stageCore
    have hempty :
        (stageCopy (cfg.artifacts.getD DEFAULT_ARTIFACTS)
          (initDeployRepoIfNeeded srv st).2.files env).2.1.isEmpty = false := by
      rw [stageCopy_copied]
      cases hf : (cfg.artifacts.getD DEFAULT_ARTIFACTS).filter
          (fun a => (env.srcArtifact a).isSome) with
      | nil => exact absurd hf hne
      | cons x xs => rfl
    simp only [hempty, Bool.false_eq_true, if_false]
  have hinit : (initDeployRepoIfNeeded srv st).2.files = st.files := by
    unfold initDeployRepoIfNeeded
    cases h : st.gitInitDone <;> simp [h]
  rw [hfiles]
  cases hwc : env.workspaceConfigFile with
  | none =>
    simp only [hwc]
    rw [stageCopy_files, hinit]
    rw [if_neg (by simp : ¬((none : Option String) ≠ none ∧ p = CONFIG_FILENAME))]
  | some c =>
    simp only [hwc]
    unfold updateFn
    by_cases hp : p = CONFIG_FILENAME
    · rw [if_pos hp, if_pos ⟨Option.noConfusion, hp⟩]
    · rw [if_neg hp, stageCopy_files, hinit]
      rw [if_neg (fun hand => hp hand.2 :
        ¬((some c : Option String) ≠ none ∧ p = CONFIG_FILENAME))]

/-- `stageCommand` with an existing source directory and a `server` block is
the core computation, wrapped in the no-artifacts fatal check. -/
theorem stageCommand_eq (cfg : ServiceCfg) (srv : ServerCfg) (env : StageEnv)
    (st : DeployRepoState)
    (hsrv : cfg.server = some srv) (hsrc : env.sourceDirExists = true) :
    stageCommand cfg env st =
      if ((cfg.artifacts.getD DEFAULT_ARTIFACTS).filter
          (fun a => (env.srcArtifact a).isSome)).isEmpty then
        .error ("No artifacts were copied. Check your artifacts config and build output.")
      else .ok (stageCore cfg srv env st) := by
  unfold stageCommand
  rw [hsrc, hsrv]
  simp only [Bool.true_eq_false, if_false]
  rw [show (stageCore cfg srv env st).1.copied.isEmpty =
      ((cfg.artifacts.getD DEFAULT_ARTIFACTS).filter
        (fun a => (env.srcArtifact a).isSome)).isEmpty from by
    rw [stageCore_copied]]

/-- C2 (amended): for configurations that carry a single-server `server`
block (stage.ts destructures `config.server`, so a servers-only
configuration throws before any copy — see the counterexample), with the
source directory present the stage operation throws iff the set of listed
artifacts present on disk is empty; on success it copies exactly the
present artifacts (in list order), emits one warning per absent artifact,
and the staged blob of every copied artifact equals the source blob
(except the reserved `.git-deploy.json` slot, which the subsequent config
copy may overwrite). -/
theorem c2_stage_exact_artifacts (cfg : ServiceCfg) (srv : ServerCfg)
    (env : StageEnv) (st : DeployRepoState)
    (hsrv : cfg.server = some srv) (hsrc : env.sourceDirExists = true) :
    ((∃ e, stageCommand cfg env st = .error e) ↔
      (cfg.artifacts.getD DEFAULT_ARTIFACTS).filter
        (fun a => (env.srcArtifact a).isSome) = []) ∧
    (∀ out st2, stageCommand cfg env st = .ok (out, st2) →
      out.copied = (cfg.artifacts.getD DEFAULT_ARTIFACTS).filter
        (fun a => (env.srcArtifact a).isSome) ∧
      out.warnings = (cfg.artifacts.getD DEFAULT_ARTIFACTS).filter
        (fun a => !(env.srcArtifact a).isSome) ∧
      (∀ a, a ∈ out.copied → a ≠ CONFIG_FILENAME →
        st2.files a = env.srcArtifact a)) := by
  rw [stageCommand_eq cfg srv env st hsrv hsrc]
  cases hf : (cfg.artifacts.getD DEFAULT_ARTIFACTS).filter
      (fun a => (env.srcArtifact a).isSome) with
  | nil =>
    refine ⟨⟨fun _ => rfl, fun _ => ⟨_, rfl⟩⟩, ?_⟩
    intro out st2 h
    exact Except.noConfusion h
  | cons x xs =>
    constructor
    · constructor
      · rintro ⟨e, he⟩
        exact Except.noConfusion he
      · intro h
        exact List.noConfusion h
    · intro out st2 h
      simp only [List.isEmpty_cons, Bool.false_eq_true, if_false] at h
      have h2 : stageCore cfg srv env st = (out, st2) := Except.ok.inj h
      have hout : out = (stageCore cfg srv env st).1 := by rw [h2]
      have hst2 : st2 = (stageCore cfg srv env st).2 := by rw [h2]
      refine ⟨?_, ?_, ?_⟩
      · rw [hout, stageCore_copied, hf]
      · rw [hout, stageCore_warnings]
      · intro a hmem hnc
        rw [hout, stageCore_copied] at hmem
        have hin := List.mem_filter.mp hmem
        rw [hst2, stageCore_files cfg srv env st a (by rw [hf]; exact List.noConfusion)]
        rw [if_neg ?_, if_pos ⟨hin.1, hin.2⟩]
        rintro ⟨_, hc⟩
        exact hnc hc

def stEmpty : DeployRepoState :=
  { gitInitDone := false, remoteUrl := none, files := fun _ => none }

def envStage : StageEnv :=
  { sourceDirExists := true
    srcArtifact := fun a => if a = "dist" then some "dist-blob-v1" else none
    workspaceConfigFile := some "workspace-config-blob" }

/-- C2 counterexample: a spec-valid multi-server configuration (only
`servers` set, no single `server` block) makes `stageCommand` throw while
destructuring the missing `config.server`, even though a listed artifact
is present on disk — the operation aborts with zero copies and no
warnings despite a non-empty present set, refuting the claim's universal
"fails iff zero artifacts copied / absent artifacts never abort". -/
theorem c2_counterexample :
    cfgTwo.server = none ∧
    envStage.sourceDirExists = true ∧
    (cfgTwo.artifacts.getD DEFAULT_ARTIFACTS).filter
      (fun a => (envStage.srcArtifact a).isSome) ≠ [] ∧
    stageCommand cfgTwo envStage stEmpty =
      .error ("Cannot destructure property host of config.server as it is undefined.") := by
  refine ⟨rfl, rfl, by decide, rfl⟩

/-- Witness for C2 at a fixture where `dist` exists on disk and
`package.json` does not: the run succeeds, copies exactly `dist`, and warns
about `package.json`. -/
theorem c2_stage_exact_artifacts_witness :
    cfgSingle.server = some srvAlpha ∧
    (((∃ e, stageCommand cfgSingle envStage stEmpty = .error e) ↔
      (cfgSingle.artifacts.getD DEFAULT_ARTIFACTS).filter
        (fun a => (envStage.srcArtifact a).isSome) = []) ∧
    (∀ out st2, stageCommand cfgSingle envStage stEmpty = .ok (out, st2) →
      out.copied = (cfgSingle.artifacts.getD DEFAULT_ARTIFACTS).filter
        (fun a => (envStage.srcArtifact a).isSome) ∧
      out.warnings = (cfgSingle.artifacts.getD DEFAULT_ARTIFACTS).filter
        (fun a => !(envStage.srcArtifact a).isSome) ∧
      (∀ a, a ∈ out.copied → a ≠ CONFIG_FILENAME →
        st2.files a = envStage.srcArtifact a))) :=
  ⟨rfl, c2_stage_exact_artifacts cfgSingle srvAlpha envStage stEmpty rfl rfl⟩

/-- C8: with unchanged source, running stage twice gives a second run that
skips `git init` and remote registration (the `.git` marker persists) and
leaves every staged file exactly as after the first run. -/
theorem c8_stage_idempotent (cfg : ServiceCfg) (srv : ServerCfg)
    (env : StageEnv) (st0 : DeployRepoState)
    (hsrv : cfg.server = some srv) (hsrc : env.sourceDirExists = true)
    (hne : (cfg.artifacts.getD DEFAULT_ARTIFACTS).filter
      (fun a => (env.srcArtifact a).isSome) ≠ []) :
    stageCommand cfg env st0 = .ok (stageCore cfg srv env st0) ∧
    stageCommand cfg env (stageCore cfg srv env st0).2 =
      .ok (stageCore cfg srv env (stageCore cfg srv env st0).2) ∧
    (stageCore cfg srv env (stageCore cfg srv env st0).2).1.didInit = false ∧
    (∀ p, (stageCore cfg srv env (stageCore cfg srv env st0).2).2.files p =
      (stageCore cfg srv env st0).2.files p) ∧
    (stageCore cfg srv env (stageCore cfg srv env st0).2).2.gitInitDone =
      (stageCore cfg srv env st0).2.gitInitDone ∧
    (stageCore cfg srv env (stageCore cfg srv env st0).2).2.remoteUrl =
      (stageCore cfg srv env st0).2.remoteUrl := by
  have hEmpty : ((cfg.artifacts.getD DEFAULT_ARTIFACTS).filter
      (fun a => (env.srcArtifact a).isSome)).isEmpty = false := by
    cases hf : (cfg.artifacts.getD DEFAULT_ARTIFACTS).filter
        (fun a => (env.srcArtifact a).isSome) with
    | nil => exact absurd hf hne
    | cons x xs => rfl
  refine ⟨?_, ?_, ?_, ?_, ?_, ?_⟩
  · rw [stageCommand_eq cfg srv env st0 hsrv hsrc]
    simp [hEmpty]
  · rw [stageCommand_eq cfg srv env (stageCore cfg srv env st0).2 hsrv hsrc]
    simp [hEmpty]
  · rw [stageCore_didInit, stageCore_gitInitDone]
    rfl
  · intro p
    rw [stageCore_files cfg srv env (stageCore cfg srv env st0).2 p hne]
    by_cases h1 : env.workspaceConfigFile ≠ none ∧ p = CONFIG_FILENAME
    · rw [if_pos h1, stageCore_files cfg srv env st0 p hne, if_pos h1]
    · rw [if_neg h1]
      by_cases h2 : p ∈ cfg.artifacts.getD DEFAULT_ARTIFACTS ∧
          (env.srcArtifact p).isSome = true
      · rw [if_pos h2, stageCore_files cfg srv env st0 p hne,
          if_neg h1, if_pos h2]
      · rw [if_neg h2]
  · rw [stageCore_gitInitDone, stageCore_gitInitDone]
  · rw [stageCore_remoteUrl, stageCore_gitInitDone]
    simp

/-- Witness for C8 at the concrete stage fixture: the second run reuses the
repository, performs no init, and reproduces the same file contents. -/
theorem c8_stage_idempotent_witness :
    ((cfgSingle.artifacts.getD DEFAULT_ARTIFACTS).filter
      (fun a => (envStage.srcArtifact a).isSome) ≠ []) ∧
    (stageCommand cfgSingle envStage stEmpty =
      .ok (stageCore cfgSingle srvAlpha envStage stEmpty) ∧
    stageCommand cfgSingle envStage (stageCore cfgSingle srvAlpha envStage stEmpty).2 =
      .ok (stageCore cfgSingle srvAlpha envStage
        (stageCore cfgSingle srvAlpha envStage stEmpty).2) ∧
    (stageCore cfgSingle srvAlpha envStage
      (stageCore cfgSingle srvAlpha envStage stEmpty).2).1.didInit = false ∧
    (∀ p, (stageCore cfgSingle srvAlpha envStage
        (stageCore cfgSingle srvAlpha envStage stEmpty).2).2.files p =
      (stageCore cfgSingle srvAlpha envStage stEmpty).2.files p) ∧
    (stageCore cfgSingle srvAlpha envStage
        (stageCore cfgSingle srvAlpha envStage stEmpty).2).2.gitInitDone =
      (stageCore cfgSingle srvAlpha envStage stEmpty).2.gitInitDone ∧
    (stageCore cfgSingle srvAlpha envStage
        (stageCore cfgSingle srvAlpha envStage stEmpty).2).2.remoteUrl =
      (stageCore cfgSingle srvAlpha envStage stEmpty).2.remoteUrl) :=
  ⟨by decide,
    c8_stage_idempotent cfgSingle srvAlpha envStage stEmpty rfl rfl (by decide)⟩

/-- Witness for C3 at a concrete successful install run: the config read
happens, checkout precedes it, and the config used is the payload's. -/
theorem c3_install_checkout_before_config_read_witness :
    IEvent.readConfig ∈ (installCommand "api" envInstall).1.trace ∧
    (∃ pre post, (installCommand "api" envInstall).1.trace =
        pre ++ IEvent.readConfig :: post ∧
      IEvent.checkout ∈ pre ∧ IEvent.readConfig ∉ pre) ∧
    getServiceConfig dcFixture "api" = .ok cfgSingle :=
  ⟨by decide,
    (c3_install_checkout_before_config_read "api" envInstall).1 (by decide),
    (c3_install_checkout_before_config_read "api" envInstall).2 cfgSingle dcFixture
      (by decide) rfl rfl⟩

/-! ## Lemmas about config validation -/

theorem validateServer_ok_fields (s : ServerCfg)
    (h : validateServer s = .ok ()) :
    validHost s.host = true ∧ validPath s.targetDir = true ∧
      validPath s.bareRepo = true := by
  unfold validateServer validateValue at h
  cases hh : validHost s.host with
  | false => simp [hh] at h
  | true =>
    cases htd : validPath s.targetDir with
    | false => simp [hh, htd] at h
    | true =>
      cases hbr : validPath s.bareRepo with
      | false => simp [hh, htd, hbr] at h
      | true => exact ⟨rfl, rfl, rfl⟩

theorem validateServers_ok_mem (l : List ServerCfg)
    (h : validateServers l = .ok ()) :
    ∀ s, s ∈ l → validateServer s = .ok () := by
  induction l with
  | nil => intro s hs; exact absurd hs (List.not_mem_nil s)
  | cons a rest ih =>
    unfold validateServers at h
    cases ha : validateServer a with
    | error e => rw [ha] at h; exact Except.noConfusion h
    | ok u =>
      rw [ha] at h
      intro s hs
      rcases List.mem_cons.mp hs with h1 | h1
      · cases u; rw [h1]; exact ha
      · exact ih h s h1


theorem validateServers_error_of_mem (l : List ServerCfg) (s : ServerCfg)
    (hs : s ∈ l) (hbad : validateServer s ≠ .ok ()) :
    validateServers l ≠ .ok () := by
  intro hok
  exact hbad (validateServers_ok_mem l hok s hs)

theorem validateServiceConfig_ok_servers (cfg : ServiceCfg)
    (h : validateServiceConfig cfg = .ok ()) :
    validateServers (validationServers cfg) = .ok () := by
  unfold validateServiceConfig at h
  cases he1 : (if cfg.processName = "" then (Except.ok ())
      else validateValue cfg.processName validProcessName ("processName")) with
  | error e => rw [he1] at h; exact Except.noConfusion h
  | ok u =>
    rw [he1] at h
    cases he2 : (match cfg.pm2User with
        | some u =>
          if u = "" then (Except.ok ())
          else validateValue u validUser ("pm2User")
        | none => Except.ok ()) with
    | error e => rw [he2] at h; exact Except.noConfusion h
    | ok v => rw [he2] at h; exact h

theorem getServiceConfig_ok_parts (dc : DeployCfg) (name : String)
    (cfg : ServiceCfg) (h : getServiceConfig dc name = .ok cfg) :
    dc.services.lookup name = some cfg ∧ validateServiceConfig cfg = .ok () := by
  cases hl : dc.services.lookup name with
  | none =>
    have hred : getServiceConfig dc name =
        .error ("Service " ++ name ++ " not found in config.") := by
      unfold getServiceConfig
      rw [hl]
    rw [hred] at h
    exact Except.noConfusion h
  | some c =>
    have hred : getServiceConfig dc name =
        (match validateServiceConfig c with
          | .ok _ => Except.ok c
          | .error e => Except.error e) := by
      unfold getServiceConfig
      rw [hl]
    rw [hred] at h
    cases hv : validateServiceConfig c with
    | error e => rw [hv] at h; exact Except.noConfusion h
    | ok u =>
      rw [hv] at h
      cases u
      have hc : c = cfg := Except.ok.inj h
      subst hc
      exact ⟨rfl, hv⟩

theorem getServiceConfig_error_of_invalid (dc : DeployCfg) (name : String)
    (cfg : ServiceCfg) (hl : dc.services.lookup name = some cfg)
    (hv : validateServiceConfig cfg ≠ .ok ()) :
    ∃ e, getServiceConfig dc name = .error e := by
  have hred : getServiceConfig dc name =
      (match validateServiceConfig cfg with
        | .ok _ => Except.ok cfg
        | .error e => Except.error e) := by
    unfold getServiceConfig
    rw [hl]
  rw [hred]
  cases hvv : validateServiceConfig cfg with
  | error e => exact ⟨e, rfl⟩
  | ok u => cases u; exact absurd hvv hv

theorem getServers_eq_validationServers (cfg : ServiceCfg)
    (hne : cfg.servers ≠ some []) (l : List ServerCfg)
    (h : getServers cfg = .ok l) : l = validationServers cfg := by
  cases hs : cfg.servers with
  | none =>
    cases hsrv : cfg.server with
    | none =>
      have hred : getServers cfg = .error ("No server configuration found.") := by
        unfold getServers
        rw [hs, hsrv]
      rw [hred] at h
      exact Except.noConfusion h
    | some s =>
      have hred : getServers cfg = .ok [s] := by
        unfold getServers
        rw [hs, hsrv]
      rw [hred] at h
      have hval : validationServers cfg = [s] := by
        unfold validationServers
        rw [hs, hsrv]
      rw [hval]
      exact (Except.ok.inj h).symm
  | some list =>
    cases list with
    | nil => exact absurd hs hne
    | cons x xs =>
      have hred : getServers cfg = .ok (x :: xs) := by
        unfold getServers
        rw [hs]
        simp
      rw [hred] at h
      have hval : validationServers cfg = x :: xs := by
        unfold validationServers
        rw [hs]
      rw [hval]
      exact (Except.ok.inj h).symm

/-- C7 (amended): a configuration returned by `getServiceConfig` has every
server in the validation list (`config.servers` when present, else the
single `config.server`) checked against the shell-safe character
allow-lists, and a value outside an allow-list in that list makes
`getServiceConfig` throw; except in the degenerate `servers: []` case the
validation list is exactly the server list used for deployment.  No
absoluteness check is performed on `bareRepo`/`targetDir`. -/
theorem c7_shell_safe_validation (dc : DeployCfg) (name : String)
    (cfg : ServiceCfg) :
    (getServiceConfig dc name = .ok cfg →
      (∀ s, s ∈ validationServers cfg →
        validHost s.host = true ∧ validPath s.targetDir = true ∧
          validPath s.bareRepo = true) ∧
      (cfg.servers ≠ some [] → ∀ l, getServers cfg = .ok l →
        l = validationServers cfg)) ∧
    (dc.services.lookup name = some cfg →
      (∃ s, s ∈ validationServers cfg ∧
        (validHost s.host = false ∨ validPath s.targetDir = false ∨
          validPath s.bareRepo = false)) →
      ∃ e, getServiceConfig dc name = .error e) := by
  constructor
  · intro h
    have hparts := getServiceConfig_ok_parts dc name cfg h
    have hsrvok := validateServiceConfig_ok_servers cfg hparts.2
    refine ⟨?_, ?_⟩
    · intro s hs
      exact validateServer_ok_fields s (validateServers_ok_mem _ hsrvok s hs)
    · intro hne l hl
      exact getServers_eq_validationServers cfg hne l hl
  · rintro hl ⟨s, hs, hbad⟩
    refine getServiceConfig_error_of_invalid dc name cfg hl ?_
    intro hok
    have hfields := validateServer_ok_fields s
      (validateServers_ok_mem _ (validateServiceConfig_ok_servers cfg hok) s hs)
    rcases hbad with hb | hb | hb
    · rw [hfields.1] at hb; exact Bool.noConfusion hb
    · rw [hfields.2.1] at hb; exact Bool.noConfusion hb
    · rw [hfields.2.2] at hb; exact Bool.noConfusion hb

def srvRelPath : ServerCfg :=
  { srvAlpha with bareRepo := "git/app" }

def cfgRelPath : ServiceCfg :=
  { cfgSingle with server := some srvRelPath }

def srvBadHost : ServerCfg :=
  { srvAlpha with host := "alpha;rm -rf /" }

def cfgServersQuirk : ServiceCfg :=
  { cfgSingle with servers := some [], server := some srvBadHost }

/-- C7 counterexample: (a) a relative `bareRepo` passes `getServiceConfig`
unchanged, so validation does not establish absoluteness; (b) with
`servers: []` and a single `server` whose host contains shell
metacharacters, `getServiceConfig` succeeds even though `getServers`
hands that unvalidated server to deployment. -/
theorem c7_counterexample :
    getServiceConfig { services := [("api", cfgRelPath)] } "api" = .ok cfgRelPath ∧
    isAbsolutePath srvRelPath.bareRepo = false ∧
    getServiceConfig { services := [("api", cfgServersQuirk)] } "api" =
      .ok cfgServersQuirk ∧
    getServers cfgServersQuirk = .ok [srvBadHost] ∧
    validHost srvBadHost.host = false := by
  refine ⟨rfl, by decide, rfl, rfl, by decide⟩

/-- Witness for C7 (amended): the valid single-server fixture passes and
its fields satisfy the allow-lists; the bad-host fixture (with a proper
`servers` list) makes `getServiceConfig` throw. -/
theorem c7_shell_safe_validation_witness :
    getServiceConfig { services := [("api", cfgSingle)] } "api" = .ok cfgSingle ∧
    (∀ s, s ∈ validationServers cfgSingle →
      validHost s.host = true ∧ validPath s.targetDir = true ∧
        validPath s.bareRepo = true) ∧
    ({ services := [("api", { cfgSingle with server := some srvBadHost })] :
        DeployCfg }).services.lookup "api" =
      some { cfgSingle with server := some srvBadHost } ∧
    (∃ e, getServiceConfig
      { services := [("api", { cfgSingle with server := some srvBadHost })] }
      "api" = .error e) :=
  ⟨rfl,
    ((c7_shell_safe_validation { services := [("api", cfgSingle)] } "api"
      cfgSingle).1 rfl).1,
    by decide,
    (c7_shell_safe_validation
      { services := [("api", { cfgSingle with server := some srvBadHost })] }
      "api" { cfgSingle with server := some srvBadHost }).2 (by decide)
      ⟨srvBadHost, by decide, Or.inl (by decide)⟩⟩

/-! ## Lemmas about SSH port parsing -/

theorem scanPort_eq_firstMatch (cs : List Char) :
    scanPort cs = sshPortFirstMatch cs := by
  induction cs with
  | nil => rfl
  | cons c rest ih =>
    unfold scanPort sshPortFirstMatch
    rw [List.tails_cons]
    cases hm : matchP (c :: rest) with
    | some n =>
      rw [List.find?_cons_of_pos _ (by rw [hm]; rfl)]
      simp [hm]
    | none =>
      rw [List.find?_cons_of_neg _ (by rw [hm]; simp)]
      exact ih

def svcRemoteUrl (srv : ServerCfg) : Option String :=
  (initDeployRepoIfNeeded srv
    { gitInitDone := false, remoteUrl := none, files := fun _ => none }).2.remoteUrl

/-- C10 counterexample: `"-p 0"` parses to port `0`, yet `buildSshUrl`
omits the `:port` component because `0` is falsy in JS, so the registered
URL is not `ssh://host:port + bareRepo` although a port was parsed. -/
theorem c10_counterexample :
    parseSshPort (some "-p 0") = some 0 ∧
    buildSshUrl "deploy@h" "/git/app" (parseSshPort (some "-p 0")) =
      "ssh://deploy@h/git/app" ∧
    svcRemoteUrl
      { host := "deploy@h", sshOptions := some "-p 0"
        targetDir := "/opt/app", bareRepo := "/git/app"
        group := none, name := none } = some "ssh://deploy@h/git/app" ∧
    ("ssh://deploy@h/git/app" : String) ≠
      "ssh://" ++ "deploy@h" ++ ":" ++ toString (0 : Nat) ++ "/git/app" := by
  refine ⟨by decide, rfl, rfl, by decide⟩

/-- C10 (amended): `parseSshPort` returns the value of the digit run that
follows the leftmost `-p` (after optional whitespace) in the option
string, and nothing when no position matches; the URL registered for a
server is `buildSshUrl host bareRepo (parseSshPort sshOptions)`, which is
`ssh://host:port + bareRepo` for a parsed non-zero port and
`ssh://host + bareRepo` when no port was parsed or the parsed port is `0`
(JS falsiness of `0`). -/
theorem c10_parse_port_and_url (host bare : String) (opts : Option String) :
    (∀ st : DeployRepoState, st.gitInitDone = false → ∀ srv : ServerCfg,
      srv.host = host → srv.bareRepo = bare → srv.sshOptions = opts →
      (initDeployRepoIfNeeded srv st).2.remoteUrl =
        some (buildSshUrl host bare (parseSshPort opts))) ∧
    (∀ p, parseSshPort opts = some p → p ≠ 0 →
      buildSshUrl host bare (parseSshPort opts) =
        "ssh://" ++ host ++ ":" ++ toString p ++ bare) ∧
    (parseSshPort opts = none →
      buildSshUrl host bare (parseSshPort opts) = "ssh://" ++ host ++ bare) ∧
    (parseSshPort opts = some 0 →
      buildSshUrl host bare (parseSshPort opts) = "ssh://" ++ host ++ bare) ∧
    (∀ s, opts = some s → s ≠ "" →
      parseSshPort opts = sshPortFirstMatch s.toList) ∧
    (∀ s, opts = some s → (∀ t, t ∈ s.toList.tails → matchP t = none) →
      parseSshPort opts = none) := by
  refine ⟨?_, ?_, ?_, ?_, ?_, ?_⟩
  · intro st hst srv hh hb ho
    unfold initDeployRepoIfNeeded
    rw [hst]
    simp [hh, hb, ho]
  · intro p hp hp0
    rw [hp]
    show (if p ≠ 0 then "ssh://" ++ host ++ ":" ++ toString p ++ bare
      else "ssh://" ++ host ++ bare) = "ssh://" ++ host ++ ":" ++ toString p ++ bare
    rw [if_pos hp0]
  · intro hp
    rw [hp]
    rfl
  · intro hp
    rw [hp]
    show (if (0 : Nat) ≠ 0 then "ssh://" ++ host ++ ":" ++ toString (0 : Nat) ++ bare
      else "ssh://" ++ host ++ bare) = "ssh://" ++ host ++ bare
    rw [if_neg (by simp)]
  · intro s hs hne
    rw [hs]
    show (if s = "" then none else scanPort s.toList) = sshPortFirstMatch s.toList
    rw [if_neg hne]
    exact scanPort_eq_firstMatch s.toList
  · intro s hs hall
    rw [hs]
    show (if s = "" then none else scanPort s.toList) = none
    by_cases hne : s = ""
    · rw [if_pos hne]
    · rw [if_neg hne]
      rw [scanPort_eq_firstMatch]
      unfold sshPortFirstMatch
      rw [List.find?_eq_none.mpr ?_]
      · rfl
      · intro t ht
        rw [hall t ht]
        simp

/-- Witness for C10 (amended) on `sshOptions = "-p 2222"`: port 2222 is
parsed and the registered URL carries `:2222`. -/
theorem c10_parse_port_and_url_witness :
    parseSshPort (some "-p 2222") = some 2222 ∧
    buildSshUrl "deploy@beta.example" "/git/app" (parseSshPort (some "-p 2222")) =
      "ssh://" ++ "deploy@beta.example" ++ ":" ++ toString (2222 : Nat) ++ "/git/app" ∧
    svcRemoteUrl srvBeta =
      some (buildSshUrl "deploy@beta.example" "/git/app"
        (parseSshPort (some "-p 2222"))) :=
  ⟨by decide,
    (c10_parse_port_and_url "deploy@beta.example" "/git/app"
      (some "-p 2222")).2.1 2222 (by decide) (by decide),
    (c10_parse_port_and_url "deploy@beta.example" "/git/app"
      (some "-p 2222")).1
      { gitInitDone := false, remoteUrl := none, files := fun _ => none }
      rfl srvBeta rfl rfl rfl⟩

end GPD
